import Mathlib

/-!
Shallow embedding of the interactive image-editor component
(src/src/components/image-editor.tsx).  Pointer coordinates are modelled as
integers, the zoom factor as a rational number.  Each React event handler
becomes a pure function on an explicit state record; the DOM reference
`editedImageRef.current` becomes a boolean argument saying whether the
reference is available.
-/

/-- A 2-D point (pointer coordinates relative to the edited-image box). -/
structure Pt where
  x : Int
  y : Int
deriving DecidableEq, Repr

/-- One entry of the `elements` list: the loosely-typed record
`{ type, x, y, content?, width?, height?, isEditing? }` of the source. -/
structure Element where
  type : String
  x : Int
  y : Int
  content : Option String
  width : Option Int
  height : Option Int
  isEditing : Option Bool
deriving DecidableEq, Repr

/-- The component state: the `useState` hooks of `ImageEditor` that the
interaction model reads or writes. -/
structure EditorState where
  image : Option String
  padding : Int
  background : String
  zoom : ℚ
  selectedTool : Option String
  cursorPosition : Pt
  elements : List Element
  isDrawing : Bool
  drawStart : Pt
  activeElement : Option Nat
  isDragging : Bool
  dragStart : Pt
deriving DecidableEq, Repr

/-- The initial hook values of the component. -/
def initialState : EditorState :=
  { image := none
    padding := 39
    background := "#e0e0e0"
    zoom := 1
    selectedTool := none
    cursorPosition := ⟨0, 0⟩
    elements := []
    isDrawing := false
    drawStart := ⟨0, 0⟩
    activeElement := none
    isDragging := false
    dragStart := ⟨0, 0⟩ }

/-- Replace the element at index `i` by `f` of it; out of range leaves the
list unchanged (the source only ever calls this with in-range indices, and
`elements.map((el, i) => i === activeElement ? … : el)` is likewise the
identity for an out-of-range index). -/
def modifyIdx : List Element → Nat → (Element → Element) → List Element
  | [], _, _ => []
  | a :: l, 0, f => f a :: l
  | a :: l, n + 1, f => a :: modifyIdx l n f

/-- `handleZoomIn`: `setZoom((prev) => Math.min(prev + 0.1, 3))`. -/
def handleZoomIn (s : EditorState) : EditorState :=
  { s with zoom := min (s.zoom + 1/10) 3 }

/-- `handleZoomOut`: `setZoom((prev) => Math.max(prev - 0.1, 0.1))`. -/
def handleZoomOut (s : EditorState) : EditorState :=
  { s with zoom := max (s.zoom - 1/10) (1/10) }

/-- `handleToolSelect`: no-op without an image; otherwise toggle the tool
and clear the active element. -/
def handleToolSelect (tool : String) (s : EditorState) : EditorState :=
  if s.image = none then s
  else
    { s with
      selectedTool := if some tool = s.selectedTool then none else some tool
      activeElement := none }

/-- `handleMouseMove`: records the cursor position; while dragging with an
active element, translates that element by the delta since the last sample
and re-anchors `dragStart` at the current point. -/
def handleMouseMove (ref : Bool) (p : Pt) (s : EditorState) : EditorState :=
  if ref = false then s
  else
    match s.activeElement with
    | some i =>
        if s.isDragging then
          { s with
            cursorPosition := p
            elements := modifyIdx s.elements i (fun el =>
              { el with
                x := el.x + (p.x - s.dragStart.x)
                y := el.y + (p.y - s.dragStart.y) })
            dragStart := p }
        else { s with cursorPosition := p }
    | none => { s with cursorPosition := p }

/-- The text element appended by `handleMouseDown` when the text tool is
selected. -/
def newTextElement (p : Pt) : Element :=
  { type := "text"
    x := p.x
    y := p.y
    content := some "Text goes here"
    width := some 200
    height := some 40
    isEditing := some true }

/-- `handleMouseDown`: text placement, start of shape drawing, or start of a
drag of the active element. -/
def handleMouseDown (ref : Bool) (p : Pt) (s : EditorState) : EditorState :=
  if ref = false then s
  else if s.selectedTool = some "text" then
    { s with
      elements := s.elements ++ [newTextElement p]
      activeElement := some s.elements.length
      selectedTool := none }
  else if s.selectedTool = some "arrow" ∨ s.selectedTool = some "square" then
    { s with isDrawing := true, drawStart := p }
  else if s.activeElement.isSome then
    { s with isDragging := true, dragStart := p }
  else s

/-- `handleMouseUp`.  The early return is guarded by
`if (isDrawing && !editedImageRef.current) return;`, after which the code
dereferences `editedImageRef.current!` unconditionally: when the reference
is absent and no draw is in progress this dereference fails, modelled by
`none`. -/
def handleMouseUp (ref : Bool) (p : Pt) (s : EditorState) : Option EditorState :=
  if s.isDrawing = true ∧ ref = false then some s
  else if ref = false then none
  else
    let s1 :=
      if s.isDrawing then
        { s with
          elements := s.elements ++
            [{ type := s.selectedTool.getD "undefined"
               x := s.drawStart.x
               y := s.drawStart.y
               content := none
               width := some (p.x - s.drawStart.x)
               height := some (p.y - s.drawStart.y)
               isEditing := none }]
          isDrawing := false
          selectedTool := none }
      else s
    some { s1 with isDragging := false }

/-- `handleElementClick`: select the clicked element. -/
def handleElementClick (i : Nat) (s : EditorState) : EditorState :=
  { s with activeElement := some i }

/-- `handleTextChange`: overwrite the content of element `i`. -/
def handleTextChange (i : Nat) (c : String) (s : EditorState) : EditorState :=
  { s with elements := modifyIdx s.elements i (fun el => { el with content := some c }) }

/-- `handleTextDoubleClick`: enter edit mode on element `i` and select it. -/
def handleTextDoubleClick (i : Nat) (s : EditorState) : EditorState :=
  { s with
    elements := modifyIdx s.elements i (fun el => { el with isEditing := some true })
    activeElement := some i }

/-- `handleTextBlur`: leave edit mode on element `i`. -/
def handleTextBlur (i : Nat) (s : EditorState) : EditorState :=
  { s with elements := modifyIdx s.elements i (fun el => { el with isEditing := some false }) }

/-- The Escape-key handler: clears the active-element selection. -/
def handleEscape (s : EditorState) : EditorState :=
  { s with activeElement := none }

/-- The outside-click handler: clears the active-element selection. -/
def handleClickOutside (s : EditorState) : EditorState :=
  { s with activeElement := none }

/-- Loading an image (`setImage` from the upload / paste readers). -/
def loadImage (src : String) (s : EditorState) : EditorState :=
  { s with image := some src }

/-- Claim C1: with the rectangle ("square") or arrow tool active, a
pointer-down at anchor `a` followed by a pointer-up at `r` appends exactly
one element of the selected shape type at position `(a.x, a.y)` with the
signed, unnormalized size `(r.x - a.x, r.y - a.y)`, and afterwards the tool
is none and the drawing flag is cleared. -/
theorem claim1_shape_drawing (s : EditorState) (a r : Pt) (t : String)
    (ht : s.selectedTool = some t) (htt : t = "arrow" ∨ t = "square") :
    handleMouseUp true r (handleMouseDown true a s) =
      some { (handleMouseDown true a s) with
             elements := s.elements ++
               [{ type := t, x := a.x, y := a.y, content := none,
                  width := some (r.x - a.x), height := some (r.y - a.y),
                  isEditing := none }]
             isDrawing := false
             selectedTool := none
             isDragging := false } := by
  rcases htt with h | h <;> subst h <;>
    simp [handleMouseDown, handleMouseUp, ht]

/-- Witness for C1 at a concrete state and gesture. -/
theorem claim1_shape_drawing_witness :
    handleMouseUp true ⟨2, 3⟩
        (handleMouseDown true ⟨10, 20⟩
          { initialState with image := some "img", selectedTool := some "square" }) =
      some { (handleMouseDown true ⟨10, 20⟩
                { initialState with image := some "img", selectedTool := some "square" }) with
             elements := [{ type := "square", x := 10, y := 20, content := none,
                            width := some (-8), height := some (-17),
                            isEditing := none }]
             isDrawing := false
             selectedTool := none
             isDragging := false } := by
  have h := claim1_shape_drawing
    { initialState with image := some "img", selectedTool := some "square" }
    ⟨10, 20⟩ ⟨2, 3⟩ "square" rfl (Or.inr rfl)
  simpa using h

/-- Claim C2: with the text tool active, a pointer-down at `p` appends
exactly one text element with position `p`, width 200, height 40, content
"Text goes here" and `isEditing = true`; the active index becomes the
previous length and the tool reverts to none. -/
theorem claim2_text_creation (s : EditorState) (p : Pt)
    (ht : s.selectedTool = some "text") :
    handleMouseDown true p s =
      { s with
        elements := s.elements ++
          [{ type := "text", x := p.x, y := p.y,
             content := some "Text goes here",
             width := some 200, height := some 40, isEditing := some true }]
        activeElement := some s.elements.length
        selectedTool := none } := by
  simp [handleMouseDown, ht, newTextElement]

/-- Witness for C2: the spec's example scenario, pointer-down at (50, 60)
with the text tool active on an otherwise fresh state. -/
theorem claim2_text_creation_witness :
    handleMouseDown true ⟨50, 60⟩
        { initialState with image := some "img", selectedTool := some "text" } =
      { initialState with
        image := some "img"
        elements := [{ type := "text", x := 50, y := 60,
                       content := some "Text goes here",
                       width := some 200, height := some 40,
                       isEditing := some true }]
        activeElement := some 0
        selectedTool := none } := by
  have h := claim2_text_creation
    { initialState with image := some "img", selectedTool := some "text" } ⟨50, 60⟩ rfl
  simpa using h

/-- Componentwise addition of points. -/
def addPt (p q : Pt) : Pt := ⟨p.x + q.x, p.y + q.y⟩

/-- Vector sum of a list of deltas. -/
def sumPts (ds : List Pt) : Pt := ds.foldl addPt ⟨0, 0⟩

/-- The pointer positions visited when a drag anchored at `p0` is sampled by
the successive deltas `ds`: each sample point is the previous one plus the
next delta. -/
def cumPoints (p0 : Pt) : List Pt → List Pt
  | [] => []
  | d :: ds => addPt p0 d :: cumPoints (addPt p0 d) ds

/-- Apply `handleMouseMove` (with the image reference present) for each
pointer position in turn. -/
def runMoves (ps : List Pt) (s : EditorState) : EditorState :=
  ps.foldl (fun st p => handleMouseMove true p st) s

theorem addPt_assoc (a b c : Pt) : addPt (addPt a b) c = addPt a (addPt b c) := by
  simp [addPt, add_assoc]

theorem foldl_addPt (ds : List Pt) (init : Pt) :
    ds.foldl addPt init = addPt init (sumPts ds) := by
  induction ds generalizing init with
  | nil => simp [sumPts, addPt]
  | cons d ds ih =>
      have h0 : sumPts (d :: ds) = addPt d (sumPts ds) := by
        show (d :: ds).foldl addPt ⟨0, 0⟩ = addPt d (sumPts ds)
        rw [List.foldl_cons, ih (addPt ⟨0, 0⟩ d)]
        simp [addPt]
      rw [List.foldl_cons, ih (addPt init d), h0, addPt_assoc]

theorem modifyIdx_length (l : List Element) (i : Nat) (f : Element → Element) :
    (modifyIdx l i f).length = l.length := by
  induction l generalizing i with
  | nil => simp [modifyIdx]
  | cons a l ih =>
      cases i with
      | zero => simp [modifyIdx]
      | succ n => simp [modifyIdx, ih]

theorem modifyIdx_getElem? (l : List Element) (i : Nat) (f : Element → Element) :
    (modifyIdx l i f)[i]? = l[i]?.map f := by
  induction l generalizing i with
  | nil => simp [modifyIdx]
  | cons a l ih =>
      cases i with
      | zero => simp [modifyIdx]
      | succ n => simp [modifyIdx, ih]

/-- One dragging move sample: state bookkeeping plus the in-place translate
of the active element. -/
theorem mouseMove_drag_step (s : EditorState) (i : Nat) (p : Pt)
    (hdrag : s.isDragging = true) (hact : s.activeElement = some i) :
    (handleMouseMove true p s).isDragging = true ∧
    (handleMouseMove true p s).activeElement = some i ∧
    (handleMouseMove true p s).dragStart = p ∧
    (handleMouseMove true p s).elements[i]? = s.elements[i]?.map
      (fun el => { el with x := el.x + (p.x - s.dragStart.x),
                           y := el.y + (p.y - s.dragStart.y) }) := by
  simp [handleMouseMove, hdrag, hact, modifyIdx_getElem?]

/-- Claim C3: during a drag of the active element, sampling the drag by any
list of deltas `ds` moves the element by exactly the vector sum of the
deltas: the final position is the initial position translated by
`sumPts ds`, independent of how the displacement was split into samples. -/
theorem claim3_drag_sums_deltas (s : EditorState) (i : Nat) (ds : List Pt)
    (hdrag : s.isDragging = true) (hact : s.activeElement = some i) :
    (runMoves (cumPoints s.dragStart ds) s).elements[i]? =
      s.elements[i]?.map (fun el =>
        { el with x := el.x + (sumPts ds).x, y := el.y + (sumPts ds).y }) := by
  induction ds generalizing s with
  | nil =>
      show s.elements[i]? = _
      cases h : s.elements[i]? with
      | none => simp
      | some el => simp [sumPts, addPt]
  | cons d ds ih =>
      have hstep := mouseMove_drag_step s i (addPt s.dragStart d) hdrag hact
      obtain ⟨h1, h2, h3, h4⟩ := hstep
      have hrun : runMoves (cumPoints s.dragStart (d :: ds)) s =
          runMoves (cumPoints (addPt s.dragStart d) ds)
            (handleMouseMove true (addPt s.dragStart d) s) := by
        simp [cumPoints, runMoves]
      rw [hrun]
      have := ih (handleMouseMove true (addPt s.dragStart d) s) h1 h2
      rw [h3] at this
      rw [this, h4]
      cases h : s.elements[i]? with
      | none => simp
      | some el =>
          have hs : sumPts (d :: ds) = addPt d (sumPts ds) := by
            show (d :: ds).foldl addPt ⟨0, 0⟩ = addPt d (sumPts ds)
            rw [List.foldl_cons, foldl_addPt]
            simp [addPt]
          rw [hs]
          simp [addPt]
          constructor <;> ring

/-- Witness for C3: a two-sample drag of the single active element. -/
theorem claim3_drag_sums_deltas_witness :
    (runMoves (cumPoints ⟨0, 0⟩ [⟨3, 4⟩, ⟨-1, 2⟩])
        { initialState with
          elements := [{ type := "text", x := 10, y := 10,
                         content := some "Text goes here", width := some 200,
                         height := some 40, isEditing := some false }]
          activeElement := some 0
          isDragging := true
          dragStart := ⟨0, 0⟩ }).elements[0]? =
      some { type := "text", x := 12, y := 16,
             content := some "Text goes here", width := some 200,
             height := some 40, isEditing := some false } := by
  have h := claim3_drag_sums_deltas
    { initialState with
       elements := [{ type := "text", x := 10, y := 10,
                      content := some "Text goes here", width := some 200,
                      height := some 40, isEditing := some false }]
       activeElement := some 0
       isDragging := true
       dragStart := ⟨0, 0⟩ } 0 [⟨3, 4⟩, ⟨-1, 2⟩] rfl rfl
  simpa [sumPts, addPt] using h

/-- Claim C4 counterexample: with an image loaded and the text tool already
active, selecting "text" twice leaves the tool at "text", not none — the
first selection toggles it off, the second re-activates it.  So
`select(T); select(T) ⇒ tool = none` fails as a universal statement. -/
theorem claim4_counterexample :
    (handleToolSelect "text" (handleToolSelect "text"
        { initialState with image := some "img", selectedTool := some "text" })).selectedTool
      = some "text" := by
  decide

/-- Claim C4 (amended): selecting a tool with no image loaded is a no-op;
with an image loaded every tool selection clears the active element;
selecting the currently active tool yields tool = none; and
`select(T); select(T)` yields tool = none provided `T` was not already the
active tool before the first selection. -/
theorem claim4_tool_select (s : EditorState) (t : String) :
    (s.image = none → handleToolSelect t s = s) ∧
    (s.image ≠ none → (handleToolSelect t s).activeElement = none) ∧
    (s.image ≠ none → s.selectedTool = some t →
      (handleToolSelect t s).selectedTool = none) ∧
    (s.image ≠ none → s.selectedTool ≠ some t →
      (handleToolSelect t (handleToolSelect t s)).selectedTool = none) := by
  refine ⟨fun h => ?_, fun h => ?_, fun h ht => ?_, fun h ht => ?_⟩
  · simp [handleToolSelect, h]
  · simp [handleToolSelect, h]
  · simp [handleToolSelect, h, ht]
  · have ht' : ¬ (some t = s.selectedTool) := fun hh => ht hh.symm
    simp [handleToolSelect, h, ht']

/-- Witness for C4 at concrete states: no image, image with a selection,
image with the tool already active, and a double selection from a fresh
tool state. -/
theorem claim4_tool_select_witness :
    handleToolSelect "text" initialState = initialState ∧
    (handleToolSelect "text"
        { initialState with image := some "i", activeElement := some 0 }).activeElement = none ∧
    (handleToolSelect "text"
        { initialState with image := some "i", selectedTool := some "text" }).selectedTool = none ∧
    (handleToolSelect "text" (handleToolSelect "text"
        { initialState with image := some "i" })).selectedTool = none :=
  ⟨(claim4_tool_select initialState "text").1 rfl,
   (claim4_tool_select { initialState with image := some "i", activeElement := some 0 }
      "text").2.1 (by decide),
   (claim4_tool_select { initialState with image := some "i", selectedTool := some "text" }
      "text").2.2.1 (by decide) rfl,
   (claim4_tool_select { initialState with image := some "i" }
      "text").2.2.2 (by decide) (by decide)⟩

/-- A zoom action: the + and − toolbar buttons. -/
inductive ZoomOp where
  | inc
  | dec
deriving DecidableEq, Repr

/-- Apply a zoom action to the state. -/
def applyZoom : ZoomOp → EditorState → EditorState
  | .inc, s => handleZoomIn s
  | .dec, s => handleZoomOut s

/-- Apply a sequence of zoom actions. -/
def runZoom (ops : List ZoomOp) (s : EditorState) : EditorState :=
  ops.foldl (fun st op => applyZoom op st) s

theorem applyZoom_bounds (op : ZoomOp) (s : EditorState)
    (h1 : 1/10 ≤ s.zoom) (h2 : s.zoom ≤ 3) :
    1/10 ≤ (applyZoom op s).zoom ∧ (applyZoom op s).zoom ≤ 3 := by
  cases op with
  | inc =>
      refine ⟨le_min (by linarith) (by norm_num), min_le_right _ _⟩
  | dec =>
      refine ⟨le_max_right _ _, max_le (by linarith) (by norm_num)⟩

theorem runZoom_bounds (ops : List ZoomOp) (s : EditorState)
    (h1 : 1/10 ≤ s.zoom) (h2 : s.zoom ≤ 3) :
    1/10 ≤ (runZoom ops s).zoom ∧ (runZoom ops s).zoom ≤ 3 := by
  induction ops generalizing s with
  | nil => exact ⟨h1, h2⟩
  | cons op ops ih =>
      have hstep := applyZoom_bounds op s h1 h2
      exact ih (applyZoom op s) hstep.1 hstep.2

/-- Claim C5 counterexample: 25 zoom-out actions from zoom 3.0 leave the
zoom at 0.5 (3.0 − 25·0.1), not at the lower clamp 0.1 as the claim
states; 29 invocations are needed to reach 0.1. -/
theorem claim5_counterexample :
    (runZoom (List.replicate 25 ZoomOp.dec) { initialState with zoom := 3 }).zoom = 1/2 ∧
    ¬ ((runZoom (List.replicate 25 ZoomOp.dec) { initialState with zoom := 3 }).zoom = 1/10) := by
  constructor <;>
    norm_num [runZoom, applyZoom, handleZoomOut, List.replicate_succ]

/-- Claim C5 (amended): starting anywhere in [0.1, 3.0] (in particular at
the initial zoom 1.0), every sequence of zoom actions keeps the zoom in
[0.1, 3.0] — never 0 or negative; six zoom-ins from 1.0 yield exactly 1.6,
twenty zoom-ins saturate at 3.0, and 29 (not 25) zoom-outs from 3.0
saturate at 0.1 (25 zoom-outs give 0.5). -/
theorem claim5_zoom_clamped (ops : List ZoomOp) (s : EditorState)
    (h1 : 1/10 ≤ s.zoom) (h2 : s.zoom ≤ 3) :
    (1/10 ≤ (runZoom ops s).zoom ∧ (runZoom ops s).zoom ≤ 3) ∧
    (runZoom (List.replicate 6 ZoomOp.inc) initialState).zoom = 8/5 ∧
    (runZoom (List.replicate 20 ZoomOp.inc) initialState).zoom = 3 ∧
    (runZoom (List.replicate 29 ZoomOp.dec) { initialState with zoom := 3 }).zoom = 1/10 := by
  refine ⟨runZoom_bounds ops s h1 h2, ?_, ?_, ?_⟩ <;>
    norm_num [runZoom, applyZoom, handleZoomIn, handleZoomOut, initialState,
      List.replicate_succ]

/-- Witness for C5 at the empty action sequence from the initial state. -/
theorem claim5_zoom_clamped_witness :
    ((1:ℚ)/10 ≤ (runZoom [] initialState).zoom ∧ (runZoom [] initialState).zoom ≤ 3) ∧
    (runZoom (List.replicate 6 ZoomOp.inc) initialState).zoom = 8/5 ∧
    (runZoom (List.replicate 20 ZoomOp.inc) initialState).zoom = 3 ∧
    (runZoom (List.replicate 29 ZoomOp.dec) { initialState with zoom := 3 }).zoom = 1/10 :=
  claim5_zoom_clamped [] initialState (by norm_num [initialState]) (by norm_num [initialState])

/-- One interaction operation of the component (the event handlers the
interaction model exposes). -/
inductive Op where
  | load (src : String)
  | tool (t : String)
  | mdown (ref : Bool) (p : Pt)
  | mmove (ref : Bool) (p : Pt)
  | mup (ref : Bool) (p : Pt)
  | click (i : Nat)
  | change (i : Nat) (c : String)
  | dblclick (i : Nat)
  | blur (i : Nat)
  | esc
  | outside
  | zin
  | zout
deriving DecidableEq, Repr

/-- Apply one operation; an operation whose handler fails (the pointer-up
null dereference) leaves the state as is for the purpose of reachability. -/
def step : Op → EditorState → EditorState
  | .load src, s => loadImage src s
  | .tool t, s => handleToolSelect t s
  | .mdown r p, s => handleMouseDown r p s
  | .mmove r p, s => handleMouseMove r p s
  | .mup r p, s => (handleMouseUp r p s).getD s
  | .click i, s => handleElementClick i s
  | .change i c, s => handleTextChange i c s
  | .dblclick i, s => handleTextDoubleClick i s
  | .blur i, s => handleTextBlur i s
  | .esc, s => handleEscape s
  | .outside, s => handleClickOutside s
  | .zin, s => handleZoomIn s
  | .zout, s => handleZoomOut s

/-- Run a sequence of operations. -/
def run (ops : List Op) (s : EditorState) : EditorState :=
  ops.foldl (fun st op => step op st) s

/-- Whether an element currently has `isEditing = true`. -/
def isEd (e : Element) : Bool := e.isEditing == some true

/-- Number of elements currently in edit mode. -/
def editingCount (s : EditorState) : Nat := s.elements.countP isEd

theorem countP_modifyIdx_eq (p : Element → Bool) (l : List Element) (i : Nat)
    (f : Element → Element) (h : ∀ a, p (f a) = p a) :
    (modifyIdx l i f).countP p = l.countP p := by
  induction l generalizing i with
  | nil => simp [modifyIdx]
  | cons a l ih =>
      cases i with
      | zero => simp [modifyIdx, List.countP_cons, h]
      | succ n => simp [modifyIdx, List.countP_cons, ih]

theorem countP_modifyIdx_le_succ (p : Element → Bool) (l : List Element) (i : Nat)
    (f : Element → Element) :
    (modifyIdx l i f).countP p ≤ l.countP p + 1 := by
  induction l generalizing i with
  | nil => simp [modifyIdx]
  | cons a l ih =>
      cases i with
      | zero =>
          simp only [modifyIdx, List.countP_cons]
          cases hf : p (f a) <;> cases ha : p a <;> simp <;> omega
      | succ n =>
          simp only [modifyIdx, List.countP_cons]
          have := ih n
          cases ha : p a <;> simp <;> omega

theorem countP_modifyIdx_le (p : Element → Bool) (l : List Element) (i : Nat)
    (f : Element → Element) (h : ∀ a, p (f a) = false) :
    (modifyIdx l i f).countP p ≤ l.countP p := by
  induction l generalizing i with
  | nil => simp [modifyIdx]
  | cons a l ih =>
      cases i with
      | zero =>
          simp only [modifyIdx, List.countP_cons, h]
          cases ha : p a <;> simp <;> omega
      | succ n =>
          simp only [modifyIdx, List.countP_cons]
          have := ih n
          cases ha : p a <;> simp <;> omega

/-- Operations that put an element into edit mode: a pointer-down with the
text tool active (creates an editing element) and a double-click on a text
element. -/
def entersEdit : Op → EditorState → Bool
  | .mdown r _, s => r && (s.selectedTool == some "text")
  | .dblclick _, _ => true
  | _, _ => false

/-- A run respects the focus discipline when every edit-entry operation is
performed in a state where no element is currently editing (in the browser
this is what the blur event of the previously focused textarea provides). -/
def goodRun : EditorState → List Op → Bool
  | _, [] => true
  | s, op :: ops =>
      (!(entersEdit op s) || (editingCount s == 0)) && goodRun (step op s) ops

theorem editing_step (op : Op) (s : EditorState)
    (h : editingCount s ≤ 1) (hg : entersEdit op s = true → editingCount s = 0) :
    editingCount (step op s) ≤ 1 := by
  cases op with
  | load src => simpa [step, loadImage, editingCount] using h
  | tool t =>
      by_cases hi : s.image = none <;>
        simpa [step, handleToolSelect, hi, editingCount] using h
  | mdown r p =>
      cases r with
      | false => simpa [step, handleMouseDown, editingCount] using h
      | true =>
          by_cases ht : s.selectedTool = some "text"
          · have h0 : editingCount s = 0 := hg (by simp [entersEdit, ht])
            have h0' : s.elements.countP isEd = 0 := h0
            simp [step, handleMouseDown, ht, editingCount, List.countP_append,
              h0', isEd, newTextElement]
          · by_cases hsh : s.selectedTool = some "arrow" ∨ s.selectedTool = some "square"
            · simpa [step, handleMouseDown, ht, hsh, editingCount] using h
            · by_cases hae : s.activeElement.isSome <;>
                simpa [step, handleMouseDown, ht, hsh, hae, editingCount] using h
  | mmove r p =>
      cases r with
      | false => simpa [step, handleMouseMove, editingCount] using h
      | true =>
          cases hae : s.activeElement with
          | none => simpa [step, handleMouseMove, hae, editingCount] using h
          | some i =>
              by_cases hd : s.isDragging = true
              · simp only [step, handleMouseMove, hae, hd, editingCount]
                simp only [Bool.false_eq_true, if_false, if_true, reduceCtorEq]
                rw [countP_modifyIdx_eq isEd s.elements i
                  (fun el => { el with x := el.x + (p.x - s.dragStart.x),
                                       y := el.y + (p.y - s.dragStart.y) })
                  (fun a => rfl)]
                exact h
              · simpa [step, handleMouseMove, hae, hd, editingCount] using h
  | mup r p =>
      by_cases hd : s.isDrawing = true
      · cases r with
        | false => simpa [step, handleMouseUp, hd, editingCount] using h
        | true =>
            have hcl : s.elements.countP isEd ≤ 1 := h
            simp [step, handleMouseUp, hd, editingCount, List.countP_append, isEd]
            simpa [isEd] using hcl
      · cases r with
        | false => simpa [step, handleMouseUp, hd, editingCount] using h
        | true => simpa [step, handleMouseUp, hd, editingCount] using h
  | click i => simpa [step, handleElementClick, editingCount] using h
  | change i c =>
      simp only [step, handleTextChange, editingCount]
      rw [countP_modifyIdx_eq isEd s.elements i
        (fun el => { el with content := some c }) (fun a => rfl)]
      exact h
  | dblclick i =>
      have h0 : editingCount s = 0 := hg (by simp [entersEdit])
      have h0' : s.elements.countP isEd = 0 := h0
      simp only [step, handleTextDoubleClick, editingCount]
      calc (modifyIdx s.elements i fun el => { el with isEditing := some true }).countP isEd
          ≤ s.elements.countP isEd + 1 := countP_modifyIdx_le_succ isEd s.elements i _
        _ ≤ 1 := by omega
  | blur i =>
      simp only [step, handleTextBlur, editingCount]
      calc (modifyIdx s.elements i fun el => { el with isEditing := some false }).countP isEd
          ≤ s.elements.countP isEd := countP_modifyIdx_le isEd s.elements i _ (fun a => rfl)
        _ ≤ 1 := h
  | esc => simpa [step, handleEscape, editingCount] using h
  | outside => simpa [step, handleClickOutside, editingCount] using h
  | zin => simpa [step, handleZoomIn, editingCount] using h
  | zout => simpa [step, handleZoomOut, editingCount] using h

/-- Claim C6 counterexample: load an image, place a text element (editing),
re-select the text tool and place a second one without the first ever
blurring — the reachable state has two elements with `isEditing = true`,
violating the claimed invariant. -/
theorem claim6_counterexample :
    ¬ (editingCount (run
        [Op.load "img", Op.tool "text", Op.mdown true ⟨0, 0⟩,
         Op.tool "text", Op.mdown true ⟨5, 5⟩] initialState) ≤ 1) := by
  decide

/-- Claim C6 (amended): at most one element has `isEditing = true` in every
state reachable by operation sequences that respect the focus discipline —
each edit-entry operation (text-tool pointer-down or double-click) happens
only when no element is currently editing.  The gesture state machine
itself does not enforce this, and without it two editing elements are
reachable. -/
theorem claim6_editing_invariant (ops : List Op) (s : EditorState)
    (h : editingCount s ≤ 1) (hg : goodRun s ops = true) :
    editingCount (run ops s) ≤ 1 := by
  induction ops generalizing s with
  | nil => exact h
  | cons op ops ih =>
      have hg' : ((!(entersEdit op s) || (editingCount s == 0)) &&
          goodRun (step op s) ops) = true := hg
      rw [Bool.and_eq_true, Bool.or_eq_true] at hg'
      obtain ⟨hg1, hg2⟩ := hg'
      have hstep : editingCount (step op s) ≤ 1 := by
        refine editing_step op s h (fun he => ?_)
        rcases hg1 with hg1 | hg1
        · rw [he] at hg1; simp at hg1
        · simpa using hg1
      exact ih (step op s) hstep hg2

/-- Witness for C6: a disciplined run that blurs the first text element
before creating the second one keeps the editing count at one. -/
theorem claim6_editing_invariant_witness :
    editingCount (run
      [Op.load "img", Op.tool "text", Op.mdown true ⟨0, 0⟩, Op.blur 0,
       Op.tool "text", Op.mdown true ⟨5, 5⟩] initialState) ≤ 1 :=
  claim6_editing_invariant
    [Op.load "img", Op.tool "text", Op.mdown true ⟨0, 0⟩, Op.blur 0,
     Op.tool "text", Op.mdown true ⟨5, 5⟩] initialState (by decide) (by decide)

/-- The subtree handed to the rasterizer: the `editedImageRef` div carries
inline `padding`, `backgroundColor` and `transform: scale(zoom)`, and
contains the image and all elements.  Both `handleSave` (via `toPng`) and
`handleCopyToClipboard` (via `toBlob`) pass exactly this node. -/
structure RasterInput where
  scale : ℚ
  padding : Int
  background : String
  image : Option String
  elements : List Element
deriving DecidableEq, Repr

/-- The raster input read from the current state. -/
def exportInput (s : EditorState) : RasterInput :=
  { scale := s.zoom
    padding := s.padding
    background := s.background
    image := s.image
    elements := s.elements }

/-- Claim C7: the export operations do NOT read the subtree at the unscaled
presentation — the zoom transform is part of the node handed to the
rasterizer, so the raster input at zoom 2.0 differs from the one at zoom
1.0.  This contradicts the claim (and matches the defect the spec flags):
the exported raster is not independent of the zoom factor. -/
theorem claim7_export_includes_zoom :
    (exportInput { initialState with zoom := 2 }).scale = 2 ∧
    (exportInput initialState).scale = 1 ∧
    exportInput { initialState with zoom := 2 } ≠ exportInput initialState := by
  refine ⟨rfl, rfl, fun h => ?_⟩
  have : (exportInput { initialState with zoom := 2 }).scale =
      (exportInput initialState).scale := by rw [h]
  norm_num [exportInput, initialState] at this

/-- `handleSave`: no-op (`none`, nothing downloaded) without the subtree
reference; otherwise rasterizes the subtree and returns the download
payload. -/
def handleSave (ref : Option RasterInput) (png : RasterInput → String) :
    Option String :=
  match ref with
  | none => none
  | some r => some (png r)

/-- `handleCopyToClipboard`: no-op without the subtree reference; with it,
rasterizes to a blob and writes to the clipboard only when the blob is
non-null (`none` = nothing written). -/
def handleCopyToClipboard (ref : Option RasterInput)
    (blob : RasterInput → Option String) : Option String :=
  match ref with
  | none => none
  | some r =>
      match blob r with
      | none => none
      | some b => some b

/-- Claim C8: Save is a no-op when the composed-subtree reference is
unavailable; Copy is a no-op both when the reference is unavailable and
when rasterization yields no blob (no clipboard write is attempted).  Both
guards return silently — the handlers are total and never signal an
error. -/
theorem claim8_export_guards (png : RasterInput → String)
    (blob : RasterInput → Option String) (r : RasterInput)
    (hb : blob r = none) :
    handleSave none png = none ∧
    handleCopyToClipboard none blob = none ∧
    handleCopyToClipboard (some r) blob = none := by
  refine ⟨rfl, rfl, ?_⟩
  simp [handleCopyToClipboard, hb]

/-- Witness for C8 with a rasterizer that yields no blob. -/
theorem claim8_export_guards_witness :
    handleSave none (fun _ => "png") = none ∧
    handleCopyToClipboard none (fun _ => none) = none ∧
    handleCopyToClipboard (some (exportInput initialState)) (fun _ => none) = none :=
  claim8_export_guards (fun _ => "png") (fun _ => none) (exportInput initialState) rfl

/-- Whether the character list contains the characters of "image" as a
contiguous run — the model of `items[i].type.indexOf("image") !== -1`. -/
def containsImageAux : List Char → Bool
  | [] => false
  | c :: rest => ("image".toList.isPrefixOf (c :: rest)) || containsImageAux rest

/-- Whether a MIME type string contains "image". -/
def mimeHasImage (t : String) : Bool := containsImageAux t.toList

/-- One clipboard item: its MIME type and (as a stand-in for the file blob
and the data URL the reader produces from it) its payload. -/
structure ClipItem where
  mime : String
  data : String
deriving DecidableEq, Repr

/-- The body of the paste loop: for every item whose type contains "image"
(there is no break), read it and set the image; the second component
collects every payload that gets loaded. -/
def pasteLoop : List ClipItem → EditorState × List String → EditorState × List String
  | [], acc => acc
  | it :: rest, acc =>
      if mimeHasImage it.mime then
        pasteLoop rest ({ acc.1 with image := some it.data }, acc.2 ++ [it.data])
      else pasteLoop rest acc

/-- `handlePaste`: nothing happens without clipboard items; otherwise the
loop over all items runs. -/
def handlePaste (items : Option (List ClipItem)) (s : EditorState) :
    EditorState × List String :=
  match items with
  | none => (s, [])
  | some its => pasteLoop its (s, [])

/-- The payloads of the image-MIME items, in order. -/
def imageMatches (its : List ClipItem) : List String :=
  (its.filter fun it => mimeHasImage it.mime).map ClipItem.data

/-- The last element of `l` if there is one, `d` otherwise. -/
def lastOr (l : List String) (d : Option String) : Option String :=
  match l.getLast? with
  | some a => some a
  | none => d

theorem lastOr_cons (a : String) (l : List String) (d : Option String) :
    lastOr (a :: l) d = lastOr l (some a) := by
  cases l with
  | nil => simp [lastOr]
  | cons b l =>
      simp only [lastOr, List.getLast?_cons_cons]
      cases h : (b :: l).getLast? with
      | none => simp at h
      | some c => rfl

theorem pasteLoop_spec (its : List ClipItem) (st : EditorState) (acc : List String) :
    pasteLoop its (st, acc) =
      ({ st with image := lastOr (imageMatches its) st.image },
       acc ++ imageMatches its) := by
  induction its generalizing st acc with
  | nil => simp [pasteLoop, imageMatches, lastOr]
  | cons it rest ih =>
      by_cases hm : mimeHasImage it.mime = true
      · have hmatch : imageMatches (it :: rest) = it.data :: imageMatches rest := by
          simp [imageMatches, hm]
        rw [show pasteLoop (it :: rest) (st, acc) =
              pasteLoop rest ({ st with image := some it.data }, acc ++ [it.data]) by
            simp [pasteLoop, hm]]
        rw [ih]
        simp [hmatch, lastOr_cons]
      · have hmatch : imageMatches (it :: rest) = imageMatches rest := by
          simp [imageMatches, hm]
        rw [show pasteLoop (it :: rest) (st, acc) = pasteLoop rest (st, acc) by
            simp [pasteLoop, hm]]
        rw [ih, hmatch]

/-- Claim C9 counterexample: a paste event with two image items loads both
(the loop has no break), and the final image is the SECOND item's payload,
not the first match as the claim states. -/
theorem claim9_counterexample :
    (handlePaste (some [⟨"image/png", "A"⟩, ⟨"image/jpeg", "B"⟩]) initialState).2 = ["A", "B"] ∧
    (handlePaste (some [⟨"image/png", "A"⟩, ⟨"image/jpeg", "B"⟩]) initialState).1.image = some "B" ∧
    ¬ ((handlePaste (some [⟨"image/png", "A"⟩, ⟨"image/jpeg", "B"⟩]) initialState).1.image = some "A") := by
  refine ⟨by decide, by decide, by decide⟩

/-- Claim C9 (amended): the paste listener loads EVERY clipboard item whose
MIME type contains "image" (one read per match, in item order), each load
overwriting the image; the resulting image is the last match's payload,
and it is the first match only when at most one item matches. -/
theorem claim9_paste_loads_all (its : List ClipItem) (s : EditorState) :
    handlePaste (some its) s =
      ({ s with image := lastOr (imageMatches its) s.image }, imageMatches its) := by
  have h := pasteLoop_spec its s []
  simpa [handlePaste] using h

/-- Claim C10: the pointer-up early return is conditioned on the drawing
flag, so with the subtree reference absent the handler is a no-op while
drawing but dereferences the absent reference (fails) when no draw is in
progress. -/
theorem claim10_mouseup_guard (s : EditorState) (p : Pt) :
    (s.isDrawing = false → handleMouseUp false p s = none) ∧
    (s.isDrawing = true → handleMouseUp false p s = some s) := by
  constructor
  · intro h; simp [handleMouseUp, h]
  · intro h; simp [handleMouseUp, h]

/-- Witness for C10: the initial state (not drawing) crashes pointer-up
without the reference; the same state with the drawing flag set is left
unchanged. -/
theorem claim10_mouseup_guard_witness :
    handleMouseUp false ⟨0, 0⟩ initialState = none ∧
    handleMouseUp false ⟨0, 0⟩ { initialState with isDrawing := true } =
      some { initialState with isDrawing := true } :=
  ⟨(claim10_mouseup_guard initialState ⟨0, 0⟩).1 rfl,
   (claim10_mouseup_guard { initialState with isDrawing := true } ⟨0, 0⟩).2 rfl⟩
